import Mathlib

/-!
Verification of the customer-payment-record core of the repository
(`app.py`, `utils.py`, `config.py`) against its specification.

The embedding is shallow: each Python function from the source is
translated into a Lean definition over explicit data.  The Mongo
collection is modelled as a `List Customer` in natural order; `find_one`,
`update_one`, `delete_one` model the corresponding single-document store
operations (the collection carries a unique index on `Id`, created at
startup in `app.py`, which is used as a hypothesis where a proof needs
key uniqueness).  Python `float` values are modelled exactly: the code
only ever parses decimal literals and adds/subtracts them, and decimal
numbers are closed under those operations, so finite values are
represented as exact decimals (`Dec`), with IEEE-754 special values
(`inf`, `-inf`, `nan`) as their own constructors.  IEEE-754 rounding,
overflow to infinity of very long literals, exponent notation and
underscore separators in numeric strings, and non-ASCII digits and
whitespace are outside the modelled fragment.
-/

namespace CMS

/-- An exact decimal number `num / 10 ^ exp`, the model of the finite
Python floats the program manipulates. -/
structure Dec where
  num : Int
  exp : Nat
deriving DecidableEq, Repr

/-- The rational value of a `Dec`. -/
def Dec.val (x : Dec) : ℚ := (x.num : ℚ) / (10 : ℚ) ^ x.exp

def Dec.add (a b : Dec) : Dec :=
  ⟨a.num * 10 ^ b.exp + b.num * 10 ^ a.exp, a.exp + b.exp⟩

def Dec.neg (a : Dec) : Dec := ⟨-a.num, a.exp⟩

/-- `a < 0`, decidably (the denominator is positive). -/
def Dec.isNeg (a : Dec) : Bool := a.num < 0

/-- `0 ≤ a`, decidably. -/
def Dec.isNonneg (a : Dec) : Bool := 0 ≤ a.num

/-- `a ≤ b`, decidably (cross-multiplication with positive denominators). -/
def Dec.le (a b : Dec) : Bool := a.num * 10 ^ b.exp ≤ b.num * 10 ^ a.exp

/-- `a < b`, decidably. -/
def Dec.lt (a b : Dec) : Bool := a.num * 10 ^ b.exp < b.num * 10 ^ a.exp

/-- A Python float: an exact finite decimal or one of the IEEE special
values the program can encounter (`float("inf")` parses in Python). -/
inductive PyF where
  | fin (x : Dec)
  | inf
  | ninf
  | nan
deriving DecidableEq, Repr

def pneg : PyF → PyF
  | .fin a => .fin a.neg
  | .inf => .ninf
  | .ninf => .inf
  | .nan => .nan

/-- Python float addition on the model (NaN propagates, `inf + -inf = nan`). -/
def padd : PyF → PyF → PyF
  | .nan, _ => .nan
  | .fin _, .nan => .nan
  | .inf, .nan => .nan
  | .ninf, .nan => .nan
  | .fin a, .fin b => .fin (a.add b)
  | .fin _, .inf => .inf
  | .fin _, .ninf => .ninf
  | .inf, .fin _ => .inf
  | .inf, .inf => .inf
  | .inf, .ninf => .nan
  | .ninf, .fin _ => .ninf
  | .ninf, .inf => .nan
  | .ninf, .ninf => .ninf

def psub (a b : PyF) : PyF := padd a (pneg b)

/-- Python `v < 0` (false on NaN). -/
def pltz : PyF → Bool
  | .fin a => a.isNeg
  | .ninf => true
  | .inf => false
  | .nan => false

/-- Python `v >= 0` (false on NaN, true on `inf`). -/
def pgez : PyF → Bool
  | .fin a => a.isNonneg
  | .inf => true
  | .ninf => false
  | .nan => false

/-- ASCII whitespace as stripped by Python `str.strip` and `float`. -/
def isPyWs (c : Char) : Bool :=
  c == ' ' || c == '\t' || c == '\n' || c == '\r' || c == '\x0b' || c == '\x0c'

/-- Strip leading and trailing whitespace, Python `str.strip()`. -/
def pstrip (cs : List Char) : List Char :=
  ((cs.dropWhile isPyWs).reverse.dropWhile isPyWs).reverse

def isDigit09 (c : Char) : Bool := '0' ≤ c && c ≤ '9'

def digitsVal (cs : List Char) : Nat :=
  cs.foldl (fun a c => 10 * a + (c.toNat - 48)) 0

/-- Magnitude part of Python `float(s)`: decimal digit forms
(`"123"`, `"12.5"`, `"5."`, `".5"`) and the case-insensitive special
spellings `inf` / `infinity` / `nan`. -/
def pyFloatMag (cs : List Char) : Option PyF :=
  let low := cs.map Char.toLower
  if low == "inf".data || low == "infinity".data then some .inf
  else if low == "nan".data then some .nan
  else
    match cs.splitOn '.' with
    | [w] =>
      if !w.isEmpty && w.all isDigit09 then some (.fin ⟨(digitsVal w : Int), 0⟩) else none
    | [w, f] =>
      if (!w.isEmpty || !f.isEmpty) && w.all isDigit09 && f.all isDigit09 then
        some (.fin ⟨(digitsVal w * 10 ^ f.length + digitsVal f : Int), f.length⟩)
      else none
    | _ => none

/-- Python `float(s)` on a string: strip whitespace, optional sign,
then the magnitude; `none` models the `ValueError` of an unparseable
string. -/
def pyFloat (s : String) : Option PyF :=
  match pstrip s.data with
  | '+' :: rest => pyFloatMag rest
  | '-' :: rest => (pyFloatMag rest).map pneg
  | rest => pyFloatMag rest

/-- utils.validate_amount: `float(amount) >= 0`, `False` on a parse error. -/
def validate_amount (amount : String) : Bool :=
  match pyFloat amount with
  | some v => pgez v
  | none => false

/-- utils.sanitize_input: strip whitespace, truncate to 500 characters. -/
def sanitize_input (text : String) : String :=
  if text = "" then "" else ⟨(pstrip text.data).take 500⟩

/-- The character class of utils.validate_name's pattern
`[A-Za-z\s.\-']` (ASCII letters, whitespace, dot, hyphen, apostrophe;
39 is the apostrophe code point). -/
def nameChar (c : Char) : Bool :=
  ('A' ≤ c && c ≤ 'Z') || ('a' ≤ c && c ≤ 'z') || isPyWs c ||
    c == '.' || c == '-' || c.toNat == 39

/-- utils.validate_name: length in [2,100] and every character in the
class (the regex `^[...]+$` anchors both ends; `\n` is in `\s`, so the
whole string must lie in the class). -/
def validate_name (name : String) : Bool :=
  if name = "" || name.length < 2 || 100 < name.length then false
  else name.data.all nameChar

/-- Digit run shape of utils.validate_phone after cleaning:
`^\+?[0-9]{10,15}$`. -/
def phoneShape : List Char → Bool
  | '+' :: rest => 10 ≤ rest.length && rest.length ≤ 15 && rest.all isDigit09
  | cs => 10 ≤ cs.length && cs.length ≤ 15 && cs.all isDigit09

/-- utils.validate_phone: drop whitespace, dashes and parentheses, then
match `^\+?[0-9]{10,15}$`. -/
def validate_phone (phone : String) : Bool :=
  if phone = "" then false
  else phoneShape (phone.data.filter (fun c => !(isPyWs c || c == '-' || c == '(' || c == ')')))

/-- A stored amount field: a number, or (in historical records) the
string encoding of a number. -/
inductive MVal where
  | num (x : PyF)
  | str (s : String)
deriving DecidableEq, Repr

/-- Python `float(x)` on a stored field: the identity on a number,
the parse of a string (`none` models the raised `ValueError`). -/
def MVal.toFloat : MVal → Option PyF
  | .num x => some x
  | .str s => pyFloat s

/-- One customer document, the fields `create_customer` writes
(`Ph.no` is spelled `PhNo`; audit timestamps are abstract ticks). -/
structure Customer where
  Id : String
  Name : String
  PhNo : String
  Date : String
  Amount_Received : MVal
  Balance_Amount : MVal
  Address : String
  Model : String
  created_at : Nat
  created_by : Option String
  updated_at : Nat
  updated_by : Option String
deriving DecidableEq, Repr

/-- `collection.find_one({"Id": cid})`: first document with that key in
natural order. -/
def find_one (db : List Customer) (cid : String) : Option Customer :=
  match db with
  | [] => none
  | c :: rest => if c.Id == cid then some c else find_one rest cid

/-- `collection.update_one({"Id": cid}, {"$set": ...})`: rewrite the
first matching document with `f`, leave the rest untouched. -/
def update_one (cid : String) (f : Customer → Customer) : List Customer → List Customer
  | [] => []
  | c :: rest => if c.Id == cid then f c :: rest else c :: update_one cid f rest

/-- `collection.delete_one({"Id": cid})`: remove the first matching
document; the first component is the `deleted_count`. -/
def delete_one (cid : String) : List Customer → Nat × List Customer
  | [] => (0, [])
  | c :: rest =>
    if c.Id == cid then (1, rest)
    else ((delete_one cid rest).1, c :: (delete_one cid rest).2)

/-- Match of utils.validate_date's regex `^\d{4}-\d{2}-\d{2}$` against a
whole string (ASCII digits; the calendar is not consulted). -/
def reDateMatch (cs : List Char) : Bool :=
  match cs with
  | [y1, y2, y3, y4, h1, m1, m2, h2, d1, d2] =>
    isDigit09 y1 && isDigit09 y2 && isDigit09 y3 && isDigit09 y4 && h1 == '-' &&
      isDigit09 m1 && isDigit09 m2 && h2 == '-' && isDigit09 d1 && isDigit09 d2
  | _ => false

/-- utils.validate_date: nonempty and the regex matches (Python's `$`
also accepts one trailing newline). -/
def validate_date (date_string : String) : Bool :=
  if date_string = "" then false
  else
    reDateMatch date_string.data ||
      (match date_string.data.getLast? with
       | some nl => nl == '\n' && reDateMatch date_string.data.dropLast
       | none => false)

/-- Outcome of the `update_amount` POST path (redirect + flash kind). -/
inductive PayMsg where
  | notFound
  | invalid
  | overpay
  | updated
  | exn
deriving DecidableEq, Repr

/-- app.update_amount, POST path: fetch by id, validate the amount
string, convert the stored amounts through `float()`, reject a negative
new balance, otherwise `$set` the two amounts and the audit fields.
`exn` models the generic exception handler (e.g. `float()` raising on a
malformed stored string); no write happens on any failure path. -/
def update_amount (db : List Customer) (customer_id new_amount : String)
    (now : Nat) (user : Option String) : PayMsg × List Customer :=
  match find_one db customer_id with
  | none => (.notFound, db)
  | some customer =>
    if validate_amount new_amount then
      match pyFloat new_amount, customer.Amount_Received.toFloat, customer.Balance_Amount.toFloat with
      | some d, some ar, some ba =>
        let updated_received := padd ar d
        let updated_balance := psub ba d
        if pltz updated_balance then (.overpay, db)
        else
          (.updated, update_one customer_id (fun c =>
            { c with Amount_Received := .num updated_received,
                     Balance_Amount := .num updated_balance,
                     updated_at := now, updated_by := user }) db)
      | _, _, _ => (.exn, db)
    else (.invalid, db)

/-- Outcome of the `edit_customer` POST path. -/
inductive EditMsg where
  | notFound
  | invalid
  | updated
deriving DecidableEq, Repr

/-- app.edit_customer, POST path: fetch by id, sanitize the four text
fields, validate name/phone/address, then `$set` exactly those four
fields plus the audit fields. -/
def edit_customer (db : List Customer) (customer_id name phone address model : String)
    (now : Nat) (user : Option String) : EditMsg × List Customer :=
  match find_one db customer_id with
  | none => (.notFound, db)
  | some _ =>
    let updated_name := sanitize_input name
    let updated_phone := sanitize_input phone
    let updated_address := sanitize_input address
    let updated_model := sanitize_input model
    if !validate_name updated_name || !validate_phone updated_phone ||
        updated_address == "" || updated_address.length < 5 then
      (.invalid, db)
    else
      (.updated, update_one customer_id (fun c =>
        { c with Name := updated_name, PhNo := updated_phone,
                 Address := updated_address, Model := updated_model,
                 updated_at := now, updated_by := user }) db)

/-- Flash kind of `delete_customer`. -/
inductive DelMsg where
  | deleted
  | notFound
deriving DecidableEq, Repr

/-- app.delete_customer: unconditional `delete_one` by key; the flash
message reports whether a document was actually removed.  Both branches
return normally. -/
def delete_customer (db : List Customer) (customer_id : String) :
    DelMsg × Nat × List Customer :=
  ((if 0 < (delete_one customer_id db).1 then .deleted else .notFound),
   (delete_one customer_id db).1, (delete_one customer_id db).2)

/-- A token of the pattern language handed to the store's `$regex`
operator: a literal character, the wildcard `.`, or a starred atom.
`re.escape` only ever produces literal tokens; the other constructors
are what an unescaped metacharacter would denote. -/
inductive RTok where
  | lit (c : Char)
  | any
  | star (t : RTok)
deriving DecidableEq, Repr

/-- Whether a single (non-star) atom matches one character, under the
case-insensitive `i` option; the wildcard does not cross a newline. -/
def tokHit : RTok → Char → Bool
  | .lit a, c => a.toLower == c.toLower
  | .any, c => c != '\n'
  | .star _, _ => false

/-- Anchored match of a token sequence against a prefix of the text,
case-insensitively. -/
def matchHere : List RTok → List Char → Bool
  | [], _ => true
  | .lit a :: ps, c :: cs => (a.toLower == c.toLower) && matchHere ps cs
  | .lit _ :: _, [] => false
  | .any :: ps, c :: cs => (c != '\n') && matchHere ps cs
  | .any :: _, [] => false
  | .star _ :: ps, [] => matchHere ps []
  | .star t :: ps, c :: cs =>
    matchHere ps (c :: cs) || (tokHit t c && matchHere (.star t :: ps) cs)
termination_by ps cs => (cs.length, ps.length)

/-- Unanchored `$regex` search: the pattern may match starting at any
position of the text (Mongo's `$regex` is a substring search). -/
def rsearch (ps : List RTok) : List Char → Bool
  | [] => matchHere ps []
  | c :: cs => matchHere ps (c :: cs) || rsearch ps cs

/-- `re.escape(term)` embedded in `$regex`: every character of the term
becomes a literal token, so no character acts as a metacharacter. -/
def reEscapeToks (term : String) : List RTok := term.data.map RTok.lit

/-- app.view_all_customers' query: empty term matches everything,
otherwise an `$or` of case-insensitive `$regex` filters over
Name, Id, Ph.no and Model, with the term escaped first. -/
def buildFilterMatches (search_query : String) (c : Customer) : Bool :=
  if search_query = "" then true
  else
    rsearch (reEscapeToks search_query) c.Name.data ||
      rsearch (reEscapeToks search_query) c.Id.data ||
      rsearch (reEscapeToks search_query) c.PhNo.data ||
      rsearch (reEscapeToks search_query) c.Model.data

/-- Case-insensitive prefix test, the specification-side notion used to
state what the escaped filter means. -/
def prefixCI : List Char → List Char → Bool
  | [], _ => true
  | _ :: _, [] => false
  | a :: ps, c :: cs => (a.toLower == c.toLower) && prefixCI ps cs

/-- Case-insensitive substring containment, the specification-side
notion: the needle occurs literally somewhere in the haystack. -/
def containsCI : List Char → List Char → Bool
  | [], needle => prefixCI needle []
  | c :: hay, needle => prefixCI needle (c :: hay) || containsCI hay needle

/-- Byte-order comparison on names, modelling the store's ascending
sort key. -/
def lexLe : List Char → List Char → Bool
  | [], _ => true
  | _ :: _, [] => false
  | a :: as, b :: bs => if a = b then lexLe as bs else decide (a < b)

def insertByName (c : Customer) : List Customer → List Customer
  | [] => [c]
  | d :: ds => if lexLe c.Name.data d.Name.data then c :: d :: ds else d :: insertByName c ds

/-- `.sort("Name", ASCENDING)`: the matching documents ordered by name. -/
def sortByName (l : List Customer) : List Customer := l.foldr insertByName []

/-- config.CUSTOMERS_PER_PAGE. -/
def CUSTOMERS_PER_PAGE : Int := 20

/-- What the list template receives; the fallback rendering of the
exception handlers is the empty result with `err := true`. -/
structure ViewResult where
  customers : List Customer
  search_query : String
  page : Int
  total_pages : Int
  total_customers : Int
  err : Bool
deriving DecidableEq, Repr

/-- app.view_all_customers: sanitize the search term, default the page
number to 1 when absent or unparseable, build the filter, count, compute
`total_pages`, then fetch `sort + skip + limit`.  A negative skip
(`page <= 0`) makes the store raise, which the generic handler turns
into the empty fallback rendering. -/
def view_all_customers (db : List Customer) (search_raw : Option String)
    (page_raw : Option Int) : ViewResult :=
  let search_query := sanitize_input (search_raw.getD "")
  let page := page_raw.getD 1
  let matching := db.filter (buildFilterMatches search_query)
  let total_customers : Int := matching.length
  let total_pages := (total_customers + CUSTOMERS_PER_PAGE - 1) / CUSTOMERS_PER_PAGE
  let skip := (page - 1) * CUSTOMERS_PER_PAGE
  if skip < 0 then
    { customers := [], search_query := "", page := 1, total_pages := 0,
      total_customers := 0, err := true }
  else
    { customers := ((sortByName matching).drop skip.toNat).take CUSTOMERS_PER_PAGE.toNat,
      search_query := search_query, page := page, total_pages := total_pages,
      total_customers := total_customers, err := false }

/-- Calendar check written from the specification's words ("a real
calendar date in `YYYY-MM-DD`"), for comparison with `validate_date`:
parse the ten-character shape into year, month, day. -/
def parseYMD (s : String) : Option (Nat × Nat × Nat) :=
  match s.data with
  | [y1, y2, y3, y4, h1, m1, m2, h2, d1, d2] =>
    if h1 == '-' && h2 == '-' && isDigit09 y1 && isDigit09 y2 && isDigit09 y3 &&
        isDigit09 y4 && isDigit09 m1 && isDigit09 m2 && isDigit09 d1 && isDigit09 d2 then
      some (((y1.toNat - 48) * 10 + (y2.toNat - 48)) * 100 +
              ((y3.toNat - 48) * 10 + (y4.toNat - 48)),
            (m1.toNat - 48) * 10 + (m2.toNat - 48),
            (d1.toNat - 48) * 10 + (d2.toNat - 48))
    else none
  | _ => none

def isLeap (y : Nat) : Bool := (y % 4 == 0 && y % 100 != 0) || y % 400 == 0

def daysInMonth (y m : Nat) : Nat :=
  if m == 2 then (if isLeap y then 29 else 28)
  else if m == 4 || m == 6 || m == 9 || m == 11 then 30
  else 31

/-- Specification-side predicate: the string denotes a real calendar
date in `YYYY-MM-DD` form. -/
def isRealDateStr (s : String) : Bool :=
  match parseYMD s with
  | some (y, m, d) => 1 ≤ m && m ≤ 12 && 1 ≤ d && d ≤ daysInMonth y m
  | none => false

/-- The example record of the specification's scenario (§8), used to
instantiate universally quantified theorems at concrete inputs. -/
def wCust : Customer :=
  { Id := "C001", Name := "Asha Rao", PhNo := "+919876543210", Date := "2024-01-15",
    Amount_Received := .num (.fin ⟨1000, 0⟩), Balance_Amount := .num (.fin ⟨4000, 0⟩),
    Address := "12 MG Road, City", Model := "X200",
    created_at := 0, created_by := some "admin", updated_at := 0, updated_by := some "admin" }

/-- A historical record whose amount fields are string-encoded numbers. -/
def wCustLegacy : Customer :=
  { wCust with Id := "C002", Amount_Received := .str "1000.50",
               Balance_Amount := .str "4000" }

/-- A store of 45 matching records, the pagination scenario of §8. -/
def db45 : List Customer := List.replicate 45 wCust

theorem Dec.pow_pos' (k : Nat) : (0 : ℚ) < (10 : ℚ) ^ k :=
  pow_pos (by norm_num) k

theorem Dec.val_add (a b : Dec) : (a.add b).val = a.val + b.val := by
  unfold Dec.val Dec.add
  have ha := ne_of_gt (Dec.pow_pos' a.exp)
  have hb := ne_of_gt (Dec.pow_pos' b.exp)
  push_cast
  rw [pow_add, div_add_div _ _ ha hb]
  ring_nf

theorem Dec.val_neg (a : Dec) : a.neg.val = -a.val := by
  unfold Dec.val Dec.neg
  push_cast
  ring

theorem Dec.isNonneg_iff (a : Dec) : a.isNonneg = true ↔ 0 ≤ a.val := by
  unfold Dec.isNonneg Dec.val
  rw [decide_eq_true_eq, le_div_iff₀ (Dec.pow_pos' a.exp), zero_mul]
  exact_mod_cast Iff.rfl

theorem Dec.isNeg_iff (a : Dec) : a.isNeg = true ↔ a.val < 0 := by
  unfold Dec.isNeg Dec.val
  rw [decide_eq_true_eq, div_lt_iff₀ (Dec.pow_pos' a.exp), zero_mul]
  exact_mod_cast Iff.rfl

theorem Dec.le_iff (a b : Dec) : Dec.le a b = true ↔ a.val ≤ b.val := by
  unfold Dec.le Dec.val
  rw [decide_eq_true_eq, div_le_div_iff₀ (Dec.pow_pos' a.exp) (Dec.pow_pos' b.exp)]
  exact_mod_cast Iff.rfl

theorem Dec.lt_iff (a b : Dec) : Dec.lt a b = true ↔ a.val < b.val := by
  unfold Dec.lt Dec.val
  rw [decide_eq_true_eq, div_lt_div_iff₀ (Dec.pow_pos' a.exp) (Dec.pow_pos' b.exp)]
  exact_mod_cast Iff.rfl

theorem find_one_update_one (cid : String) (f : Customer → Customer)
    (hf : ∀ c, (f c).Id = c.Id) (db : List Customer) :
    find_one (update_one cid f db) cid = (find_one db cid).map f := by
  induction db with
  | nil => rfl
  | cons c rest ih =>
    cases h : (c.Id == cid) with
    | true => simp [find_one, update_one, h, hf]
    | false => simp [find_one, update_one, h, ih]

theorem find_one_eq_none (cid : String) (db : List Customer)
    (h : ∀ c ∈ db, (c.Id == cid) = false) : find_one db cid = none := by
  induction db with
  | nil => rfl
  | cons c rest ih =>
    simp only [find_one, h c (by simp), if_false]
    exact ih (fun d hd => h d (by simp [hd]))

theorem delete_one_count_of_found (cid : String) (db : List Customer) (c : Customer)
    (h : find_one db cid = some c) : (delete_one cid db).1 = 1 := by
  induction db with
  | nil => simp [find_one] at h
  | cons d rest ih =>
    cases hd : (d.Id == cid) with
    | true => simp [delete_one, hd]
    | false =>
      simp only [find_one, hd, if_false] at h
      simp [delete_one, hd, ih h]

theorem delete_one_of_not_found (cid : String) (db : List Customer)
    (h : find_one db cid = none) : delete_one cid db = (0, db) := by
  induction db with
  | nil => rfl
  | cons d rest ih =>
    cases hd : (d.Id == cid) with
    | true => simp [find_one, hd] at h
    | false =>
      simp only [find_one, hd, if_false] at h
      simp [delete_one, hd, ih h]

theorem mem_delete_one (cid : String) (db : List Customer) (c : Customer)
    (h : c ∈ (delete_one cid db).2) : c ∈ db := by
  induction db with
  | nil => simp [delete_one] at h
  | cons d rest ih =>
    cases hd : (d.Id == cid) with
    | true =>
      simp only [delete_one, hd, if_true] at h
      exact List.mem_cons_of_mem _ h
    | false =>
      simp [delete_one, hd] at h
      rcases h with heq | hmem
      · simp [heq]
      · exact List.mem_cons_of_mem _ (ih hmem)

theorem find_one_delete_one (cid : String) (db : List Customer)
    (hd : db.Pairwise (fun a b => a.Id ≠ b.Id)) :
    find_one (delete_one cid db).2 cid = none := by
  induction db with
  | nil => rfl
  | cons c rest ih =>
    rcases List.pairwise_cons.mp hd with ⟨hc, hrest⟩
    cases h : (c.Id == cid) with
    | true =>
      simp only [delete_one, h, if_true]
      apply find_one_eq_none
      intro d hdm
      have hne : c.Id ≠ d.Id := hc d hdm
      have hcid : c.Id = cid := by simpa using h
      simp [← hcid]
      exact fun he => hne he.symm
    | false =>
      simp only [delete_one, h, if_false, find_one]
      exact ih hrest

theorem matchHere_lits (t : List Char) (cs : List Char) :
    matchHere (t.map RTok.lit) cs = prefixCI t cs := by
  induction t generalizing cs with
  | nil => cases cs <;> simp [matchHere, prefixCI]
  | cons a t ih =>
    cases cs with
    | nil => simp [matchHere, prefixCI]
    | cons c cs => simp [matchHere, prefixCI, ih]

theorem rsearch_lits (t : List Char) (cs : List Char) :
    rsearch (t.map RTok.lit) cs = containsCI cs t := by
  induction cs with
  | nil => simp [rsearch, containsCI, matchHere_lits]
  | cons c cs ih => simp [rsearch, containsCI, matchHere_lits, ih]

theorem length_insertByName (c : Customer) (l : List Customer) :
    (insertByName c l).length = l.length + 1 := by
  induction l with
  | nil => rfl
  | cons d ds ih =>
    simp only [insertByName]
    split
    · simp
    · simp [ih]

theorem length_sortByName (l : List Customer) :
    (sortByName l).length = l.length := by
  unfold sortByName
  induction l with
  | nil => rfl
  | cons c cs ih => simp [length_insertByName, ih]

theorem ceil_div_twenty (n : ℕ) : ⌈(n : ℚ) / 20⌉ = ((n + 19) / 20 : ℕ) := by
  have h1 : n ≤ 20 * ((n + 19) / 20) := by omega
  have h2 : 20 * ((n + 19) / 20) < n + 20 := by omega
  rw [Int.ceil_eq_iff]
  constructor
  · rw [lt_div_iff₀ (by norm_num : (0:ℚ) < 20)]
    push_cast
    qify at h2
    linarith
  · rw [div_le_iff₀ (by norm_num : (0:ℚ) < 20)]
    push_cast
    qify at h1
    linarith

theorem validate_amount_of_parse (s : String) (d : Dec)
    (hparse : pyFloat s = some (.fin d)) (hd0 : 0 ≤ d.val) :
    validate_amount s = true := by
  unfold validate_amount
  rw [hparse]
  show pgez (.fin d) = true
  simp only [pgez]
  rw [Dec.isNonneg_iff]
  exact hd0

theorem update_amount_success (db : List Customer) (cid s : String) (now : Nat)
    (user : Option String) (c : Customer) (ra ba d : Dec)
    (hfind : find_one db cid = some c)
    (har : c.Amount_Received.toFloat = some (.fin ra))
    (hba : c.Balance_Amount.toFloat = some (.fin ba))
    (hparse : pyFloat s = some (.fin d))
    (hd0 : 0 ≤ d.val) (hdb : d.val ≤ ba.val) :
    (update_amount db cid s now user).1 = .updated ∧
    find_one (update_amount db cid s now user).2 cid =
      some { c with Amount_Received := .num (.fin (ra.add d)),
                    Balance_Amount := .num (.fin (ba.add d.neg)),
                    updated_at := now, updated_by := user } := by
  have hval := validate_amount_of_parse s d hparse hd0
  have hnb : (ba.add d.neg).isNeg = false := by
    rw [Bool.eq_false_iff, Ne, Dec.isNeg_iff, Dec.val_add, Dec.val_neg]
    intro hlt
    linarith
  have hred : update_amount db cid s now user =
      (.updated, update_one cid (fun x =>
        { x with Amount_Received := .num (.fin (ra.add d)),
                 Balance_Amount := .num (.fin (ba.add d.neg)),
                 updated_at := now, updated_by := user }) db) := by
    unfold update_amount
    rw [hfind]
    simp only [hval, if_true, hparse, har, hba, psub, pneg, padd, pltz, hnb,
      Bool.false_eq_true, if_false]
  rw [hred]
  refine ⟨rfl, ?_⟩
  dsimp only
  rw [find_one_update_one cid (fun x =>
      { x with Amount_Received := .num (.fin (ra.add d)),
               Balance_Amount := .num (.fin (ba.add d.neg)),
               updated_at := now, updated_by := user }) (fun x => rfl) db, hfind]
  rfl

theorem update_amount_overpay (db : List Customer) (cid s : String) (now : Nat)
    (user : Option String) (c : Customer) (ar : PyF) (ba d : Dec)
    (hfind : find_one db cid = some c)
    (har : c.Amount_Received.toFloat = some ar)
    (hba : c.Balance_Amount.toFloat = some (.fin ba))
    (hparse : pyFloat s = some (.fin d))
    (hd0 : 0 ≤ d.val) (hover : ba.val < d.val) :
    update_amount db cid s now user = (.overpay, db) := by
  have hval := validate_amount_of_parse s d hparse hd0
  have hnb : (ba.add d.neg).isNeg = true := by
    rw [Dec.isNeg_iff, Dec.val_add, Dec.val_neg]
    linarith
  unfold update_amount
  rw [hfind]
  simp only [hval, if_true, hparse, har, hba, psub, pneg, padd, pltz, hnb]

theorem validate_date_of_parseYMD (s : String) (t : Nat × Nat × Nat)
    (h : parseYMD s = some t) : validate_date s = true := by
  unfold parseYMD at h
  split at h
  case h_2 => exact absurd h (by simp)
  case h_1 y1 y2 y3 y4 h1 m1 m2 h2 d1 d2 heq =>
    split at h
    case isFalse => exact absurd h (by simp)
    case isTrue hg =>
      have hs : s ≠ "" := by
        intro hempty
        rw [hempty] at heq
        simp at heq
      unfold validate_date
      rw [if_neg hs]
      have hre : reDateMatch s.data = true := by
        rw [heq]
        simp only [Bool.and_eq_true, beq_iff_eq] at hg
        simp [reDateMatch, Bool.and_eq_true]
        tauto
      rw [hre]
      rfl

theorem total_pages_int_eq (n : ℕ) :
    ((n : Int) + 20 - 1) / 20 = ((n + 19) / 20 : ℕ) := by omega

/-- C1: for a stored record with numeric `Amount_Received`/`Balance_Amount`
and a payment string parsing to a delta `d` (which then passes
`validate_amount`) with `0 ≤ d ≤ balance`, the update_amount POST path
succeeds, and the stored record afterwards carries
`Amount_Received = amountReceived + d` and `Balance_Amount =
balanceAmount - d ≥ 0` with the audit fields `updated_at`/`updated_by`
refreshed to the current tick and user.  `d = 0` is included (the
witness instantiates the theorem at delta string `"0"`). -/
theorem claim_C1_payment_in_range_succeeds
    (db : List Customer) (cid s : String) (now : Nat) (user : Option String)
    (c : Customer) (ra ba d : Dec)
    (hfind : find_one db cid = some c)
    (har : c.Amount_Received = .num (.fin ra))
    (hba : c.Balance_Amount = .num (.fin ba))
    (hparse : pyFloat s = some (.fin d))
    (hd0 : 0 ≤ d.val) (hdb : d.val ≤ ba.val) :
    (update_amount db cid s now user).1 = .updated ∧
    ∃ ar2 ba2 : Dec,
      find_one (update_amount db cid s now user).2 cid =
        some { c with Amount_Received := .num (.fin ar2),
                      Balance_Amount := .num (.fin ba2),
                      updated_at := now, updated_by := user } ∧
      ar2.val = ra.val + d.val ∧ ba2.val = ba.val - d.val ∧ 0 ≤ ba2.val := by
  have har' : c.Amount_Received.toFloat = some (.fin ra) := by
    rw [har]
    rfl
  have hba' : c.Balance_Amount.toFloat = some (.fin ba) := by
    rw [hba]
    rfl
  obtain ⟨h1, h2⟩ :=
    update_amount_success db cid s now user c ra ba d hfind har' hba' hparse hd0 hdb
  refine ⟨h1, ra.add d, ba.add d.neg, h2, Dec.val_add ra d, ?_, ?_⟩
  · rw [Dec.val_add, Dec.val_neg]
    ring
  · rw [Dec.val_add, Dec.val_neg]
    linarith

/-- C1 witness: the specification's example record paying delta `"0"`,
the no-op edge case: the call succeeds and the audit fields move to the
new tick and user. -/
theorem claim_C1_payment_in_range_succeeds_witness :
    (update_amount [wCust] "C001" "0" 7 (some "admin")).1 = .updated ∧
    ∃ ar2 ba2 : Dec,
      find_one (update_amount [wCust] "C001" "0" 7 (some "admin")).2 "C001" =
        some { wCust with Amount_Received := .num (.fin ar2),
                          Balance_Amount := .num (.fin ba2),
                          updated_at := 7, updated_by := some "admin" } ∧
      ar2.val = (Dec.mk 1000 0).val + (Dec.mk 0 0).val ∧
      ba2.val = (Dec.mk 4000 0).val - (Dec.mk 0 0).val ∧ 0 ≤ ba2.val :=
  claim_C1_payment_in_range_succeeds [wCust] "C001" "0" 7 (some "admin") wCust
    ⟨1000, 0⟩ ⟨4000, 0⟩ ⟨0, 0⟩ (by decide) rfl rfl (by decide)
    ((Dec.isNonneg_iff ⟨0, 0⟩).mp (by decide))
    ((Dec.le_iff ⟨0, 0⟩ ⟨4000, 0⟩).mp (by decide))

/-- C2: a delta that passes `validate_amount` but exceeds the balance is
rejected with the overpayment outcome, and the store is returned exactly
as it was: no field of any record changes. -/
theorem claim_C2_overpayment_rejected_no_write
    (db : List Customer) (cid s : String) (now : Nat) (user : Option String)
    (c : Customer) (ar : PyF) (ba d : Dec)
    (hfind : find_one db cid = some c)
    (har : c.Amount_Received.toFloat = some ar)
    (hba : c.Balance_Amount.toFloat = some (.fin ba))
    (hparse : pyFloat s = some (.fin d))
    (hd0 : 0 ≤ d.val) (hover : ba.val < d.val) :
    update_amount db cid s now user = (.overpay, db) :=
  update_amount_overpay db cid s now user c ar ba d hfind har hba hparse hd0 hover

/-- C2 witness: the specification's scenario, paying 4500 against a
balance of 4000: overpayment, store unchanged. -/
theorem claim_C2_overpayment_rejected_no_write_witness :
    update_amount [wCust] "C001" "4500" 7 (some "admin") = (.overpay, [wCust]) :=
  claim_C2_overpayment_rejected_no_write [wCust] "C001" "4500" 7 (some "admin")
    wCust (.fin ⟨1000, 0⟩) ⟨4000, 0⟩ ⟨4500, 0⟩ (by decide) rfl rfl (by decide)
    ((Dec.isNonneg_iff ⟨4500, 0⟩).mp (by decide))
    ((Dec.lt_iff ⟨4000, 0⟩ ⟨4500, 0⟩).mp (by decide))

/-- C3 counterexample: the claim says `validate_date` rejects the
calendrically invalid `"2024-02-30"`; the code's regex accepts it. -/
theorem claim_C3_counterexample : validate_date "2024-02-30" = true := by decide

/-- C3 (amended): `validate_date` checks only the digit pattern
`^\d{4}-\d{2}-\d{2}$`, not the calendar: every real calendar date in
`YYYY-MM-DD` form passes (in particular the leap-year day
`"2024-02-29"`), but calendrically invalid strings matching the pattern,
such as `"2024-02-30"` or month 13, pass as well; strings not matching
the pattern fail. -/
theorem claim_C3_amended_format_only :
    (∀ s : String, isRealDateStr s = true → validate_date s = true) ∧
    validate_date "2024-02-29" = true ∧
    validate_date "2024-02-30" = true ∧
    validate_date "2024-13-01" = true ∧
    validate_date "2024-1-5" = false ∧
    validate_date "not-a-date" = false := by
  refine ⟨?_, by decide, by decide, by decide, by decide, by decide⟩
  intro s h
  unfold isRealDateStr at h
  cases hp : parseYMD s with
  | none => rw [hp] at h; exact absurd h (by simp)
  | some t => exact validate_date_of_parseYMD s t hp

/-- C3 witness: a real calendar date accepted through the amended
theorem's universal part. -/
theorem claim_C3_amended_format_only_witness : validate_date "2026-02-28" = true :=
  claim_C3_amended_format_only.1 "2026-02-28" (by decide)

/-- C4 counterexample: the claim says every non-finite input is
rejected; `float("inf")` parses in Python and `inf >= 0` holds, so the
code accepts `"inf"`. -/
theorem claim_C4_counterexample : validate_amount "inf" = true := by decide

/-- C4 (amended): `validate_amount` accepts exactly the inputs that
parse as a float whose value compares `>= 0`: finite parses are accepted
iff the value is nonnegative, non-numeric input and NaN and negative
values (including `-inf`) are rejected, but positive infinity is
accepted — non-finite values are not filtered out. -/
theorem claim_C4_amended_parse_nonneg :
    (∀ s : String, ∀ x : Dec, pyFloat s = some (.fin x) →
        (validate_amount s = true ↔ 0 ≤ x.val)) ∧
    (∀ s : String, pyFloat s = some .inf → validate_amount s = true) ∧
    (∀ s : String, pyFloat s = some .nan → validate_amount s = false) ∧
    (∀ s : String, pyFloat s = some .ninf → validate_amount s = false) ∧
    (∀ s : String, pyFloat s = none → validate_amount s = false) ∧
    validate_amount "inf" = true ∧ validate_amount "nan" = false ∧
    validate_amount "-5" = false ∧ validate_amount "abc" = false ∧
    validate_amount "" = false ∧ validate_amount "4000" = true ∧
    validate_amount "12.5" = true := by
  refine ⟨?_, ?_, ?_, ?_, ?_, by decide, by decide, by decide, by decide,
    by decide, by decide, by decide⟩
  · intro s x h
    unfold validate_amount
    rw [h]
    show pgez (.fin x) = true ↔ _
    simp only [pgez]
    exact Dec.isNonneg_iff x
  · intro s h
    unfold validate_amount
    rw [h]
    rfl
  · intro s h
    unfold validate_amount
    rw [h]
    rfl
  · intro s h
    unfold validate_amount
    rw [h]
    rfl
  · intro s h
    unfold validate_amount
    rw [h]

/-- C4 witness: `"12.5"` parses to the finite decimal `125/10` and is
accepted iff that value is nonnegative. -/
theorem claim_C4_amended_parse_nonneg_witness :
    validate_amount "12.5" = true ↔ 0 ≤ (Dec.mk 125 1).val :=
  claim_C4_amended_parse_nonneg.1 "12.5" ⟨125, 1⟩ (by decide)

/-- C5 counterexample: the claim says a request with `page ≤ 0` behaves
as if `page = 1`; on a one-record store, page 0 and page 1 render
differently (page 0 hits the error fallback). -/
theorem claim_C5_counterexample :
    view_all_customers [wCust] none (some 0) ≠ view_all_customers [wCust] none (some 1) := by
  decide

/-- C5 (amended): the page number is 1-based and defaults to 1 when the
parameter is absent (or unparseable), but it is not clamped: for every
`page ≤ 0` the negative store skip raises, and the generic handler
returns the empty error rendering instead of the first page. -/
theorem claim_C5_amended_no_clamp (db : List Customer) (s : Option String) (p : Int)
    (hp : p ≤ 0) :
    view_all_customers db s (some p) =
      { customers := [], search_query := "", page := 1, total_pages := 0,
        total_customers := 0, err := true } ∧
    view_all_customers db s none = view_all_customers db s (some 1) := by
  constructor
  · unfold view_all_customers CUSTOMERS_PER_PAGE
    simp only [Option.getD]
    rw [if_pos (by omega : (p - 1) * 20 < 0)]
  · rfl

/-- C5 witness: page 0 on a one-record store yields the error fallback,
and an absent page parameter renders like page 1. -/
theorem claim_C5_amended_no_clamp_witness :
    view_all_customers [wCust] none (some 0) =
      { customers := [], search_query := "", page := 1, total_pages := 0,
        total_customers := 0, err := true } ∧
    view_all_customers [wCust] none none = view_all_customers [wCust] none (some 1) :=
  claim_C5_amended_no_clamp [wCust] none 0 (by decide)

/-- C6: for every `page ≥ 1`, the list operation renders without error
the window `drop ((page - 1) * pageSize)` then `take pageSize` of the
sorted matching records, at most `pageSize` records per page, with
`total_pages = ⌈totalMatching / pageSize⌉`; concretely with
`pageSize = 20` and 45 matching records, `total_pages = 3`, page 3 has
exactly 5 records and page 4 has 0 records without error. -/
theorem claim_C6_pagination_arithmetic
    (db : List Customer) (s : Option String) (page : Int) (hp : 1 ≤ page) :
    (view_all_customers db s (some page)).err = false ∧
    (view_all_customers db s (some page)).customers =
      ((sortByName (db.filter (buildFilterMatches (sanitize_input (s.getD ""))))).drop
          (((page - 1) * 20).toNat)).take 20 ∧
    (view_all_customers db s (some page)).total_pages =
      ⌈((db.filter (buildFilterMatches (sanitize_input (s.getD "")))).length : ℚ) / 20⌉ ∧
    (view_all_customers db s (some page)).customers.length ≤ 20 ∧
    (view_all_customers db45 none (some 1)).total_customers = 45 ∧
    (view_all_customers db45 none (some 1)).total_pages = 3 ∧
    (view_all_customers db45 none (some 3)).customers.length = 5 ∧
    (view_all_customers db45 none (some 4)).customers.length = 0 ∧
    (view_all_customers db45 none (some 4)).err = false := by
  have hmain : view_all_customers db s (some page) =
      { customers := ((sortByName (db.filter (buildFilterMatches (sanitize_input (s.getD ""))))).drop
            (((page - 1) * 20).toNat)).take ((20 : Int)).toNat,
        search_query := sanitize_input (s.getD ""),
        page := page,
        total_pages :=
          (((db.filter (buildFilterMatches (sanitize_input (s.getD "")))).length : Int) + 20 - 1) / 20,
        total_customers := (db.filter (buildFilterMatches (sanitize_input (s.getD "")))).length,
        err := false } := by
    unfold view_all_customers CUSTOMERS_PER_PAGE
    simp only [Option.getD]
    rw [if_neg (by omega : ¬ (page - 1) * 20 < 0)]
  refine ⟨?_, ?_, ?_, ?_, by decide, by decide, by decide, by decide, by decide⟩
  · rw [hmain]
  · rw [hmain]
    rfl
  · rw [hmain]
    show (((db.filter (buildFilterMatches (sanitize_input (s.getD "")))).length : Int) + 20 - 1) / 20 = _
    rw [total_pages_int_eq, ceil_div_twenty]
  · rw [hmain]
    show (((sortByName _).drop _).take ((20 : Int)).toNat).length ≤ 20
    exact le_trans (List.length_take_le _ _) (by norm_num)

/-- C6 witness: the conjunction instantiated at the empty store with
page 1 (the universal conjuncts) together with the concrete 45-record
facts. -/
theorem claim_C6_pagination_arithmetic_witness :
    (view_all_customers [] none (some 1)).err = false ∧
    (view_all_customers [] none (some 1)).customers =
      ((sortByName (([] : List Customer).filter
          (buildFilterMatches (sanitize_input ((none : Option String).getD ""))))).drop
          ((((1 : Int) - 1) * 20).toNat)).take 20 ∧
    (view_all_customers [] none (some 1)).total_pages =
      ⌈((([] : List Customer).filter
          (buildFilterMatches (sanitize_input ((none : Option String).getD "")))).length : ℚ) / 20⌉ ∧
    (view_all_customers [] none (some 1)).customers.length ≤ 20 ∧
    (view_all_customers db45 none (some 1)).total_customers = 45 ∧
    (view_all_customers db45 none (some 1)).total_pages = 3 ∧
    (view_all_customers db45 none (some 3)).customers.length = 5 ∧
    (view_all_customers db45 none (some 4)).customers.length = 0 ∧
    (view_all_customers db45 none (some 4)).err = false :=
  claim_C6_pagination_arithmetic [] none 1 (by decide)

/-- C7: the search filter accepts every record when the sanitized term
is empty, and otherwise accepts exactly the records where the term
occurs as a case-insensitive literal substring of the name, identifier,
phone or model — the escaped pattern never acts as a metacharacter, for
every term including `".*"` and unbalanced parentheses, and the match is
total (no failure). -/
theorem claim_C7_search_filter_literal_substring (search_query : String) (c : Customer) :
    buildFilterMatches search_query c =
      if search_query = "" then true
      else (containsCI c.Name.data search_query.data ||
            containsCI c.Id.data search_query.data ||
            containsCI c.PhNo.data search_query.data ||
            containsCI c.Model.data search_query.data) := by
  unfold buildFilterMatches reEscapeToks
  split
  · rfl
  · rw [rsearch_lits, rsearch_lits, rsearch_lits, rsearch_lits]

/-- C8: an edit that passes validation succeeds and rewrites exactly
`Name`, `Ph.no`, `Address`, `Model` and the audit fields; `Id`, `Date`,
`Amount_Received`, `Balance_Amount`, `created_at` and `created_by` of
the stored record are untouched. -/
theorem claim_C8_edit_updates_only_profile_fields
    (db : List Customer) (cid name phone address model : String)
    (now : Nat) (user : Option String) (c : Customer)
    (hfind : find_one db cid = some c)
    (hn : validate_name (sanitize_input name) = true)
    (hp : validate_phone (sanitize_input phone) = true)
    (ha : 5 ≤ (sanitize_input address).length) :
    (edit_customer db cid name phone address model now user).1 = .updated ∧
    find_one (edit_customer db cid name phone address model now user).2 cid =
      some { c with Name := sanitize_input name, PhNo := sanitize_input phone,
                    Address := sanitize_input address, Model := sanitize_input model,
                    updated_at := now, updated_by := user } := by
  have hne : (sanitize_input address == "") = false := by
    rw [beq_eq_false_iff_ne]
    intro he
    rw [he] at ha
    simp at ha
  have hlt : decide ((sanitize_input address).length < 5) = false := by
    simp only [decide_eq_false_iff_not, not_lt]
    exact ha
  have hred : edit_customer db cid name phone address model now user =
      (.updated, update_one cid (fun x =>
        { x with Name := sanitize_input name, PhNo := sanitize_input phone,
                 Address := sanitize_input address, Model := sanitize_input model,
                 updated_at := now, updated_by := user }) db) := by
    unfold edit_customer
    rw [hfind]
    simp only [hn, hp, hne, hlt, Bool.not_true, Bool.or_false, Bool.false_or,
      Bool.false_eq_true, if_false]
  rw [hred]
  refine ⟨rfl, ?_⟩
  dsimp only
  rw [find_one_update_one cid (fun x =>
      { x with Name := sanitize_input name, PhNo := sanitize_input phone,
               Address := sanitize_input address, Model := sanitize_input model,
               updated_at := now, updated_by := user }) (fun x => rfl) db, hfind]
  rfl

/-- C8 witness: a concrete valid edit of the example record; the amount
and creation fields of the stored record are visibly unchanged. -/
theorem claim_C8_edit_updates_only_profile_fields_witness :
    (edit_customer [wCust] "C001" "Ravi Kumar" "9876543210" "221B Baker Street" "M2"
        9 (some "admin")).1 = .updated ∧
    find_one (edit_customer [wCust] "C001" "Ravi Kumar" "9876543210" "221B Baker Street" "M2"
        9 (some "admin")).2 "C001" =
      some { wCust with Name := sanitize_input "Ravi Kumar",
                        PhNo := sanitize_input "9876543210",
                        Address := sanitize_input "221B Baker Street",
                        Model := sanitize_input "M2",
                        updated_at := 9, updated_by := some "admin" } :=
  claim_C8_edit_updates_only_profile_fields [wCust] "C001" "Ravi Kumar" "9876543210"
    "221B Baker Street" "M2" 9 (some "admin") wCust (by decide) (by decide) (by decide)
    (by decide)

/-- C9: on a store whose keys are unique (the collection's unique index
on `Id`), deleting an existing record reports `deleted_count = 1`, and
deleting again completes normally reporting the record absent with
`deleted_count = 0`. -/
theorem claim_C9_delete_idempotent (db : List Customer) (cid : String) (c : Customer)
    (huniq : db.Pairwise (fun a b => a.Id ≠ b.Id))
    (hfind : find_one db cid = some c) :
    (delete_customer db cid).2.1 = 1 ∧
    (delete_customer db cid).1 = .deleted ∧
    (delete_customer (delete_customer db cid).2.2 cid).2.1 = 0 ∧
    (delete_customer (delete_customer db cid).2.2 cid).1 = .notFound := by
  have h1 : (delete_one cid db).1 = 1 := delete_one_count_of_found cid db c hfind
  have hnone : find_one (delete_one cid db).2 cid = none := find_one_delete_one cid db huniq
  have h2 : delete_one cid (delete_one cid db).2 = (0, (delete_one cid db).2) :=
    delete_one_of_not_found cid _ hnone
  refine ⟨?_, ?_, ?_, ?_⟩ <;> simp [delete_customer, h1, h2]

/-- C9 witness: deleting the singleton store's record twice. -/
theorem claim_C9_delete_idempotent_witness :
    (delete_customer [wCust] "C001").2.1 = 1 ∧
    (delete_customer [wCust] "C001").1 = .deleted ∧
    (delete_customer (delete_customer [wCust] "C001").2.2 "C001").2.1 = 0 ∧
    (delete_customer (delete_customer [wCust] "C001").2.2 "C001").1 = .notFound :=
  claim_C9_delete_idempotent [wCust] "C001" wCust (by simp) (by decide)

/-- C10: a record whose amount fields are decimal numeric strings (the
historical string-encoded variant) is coerced through `float()` by the
payment path: a delta with `0 ≤ d ≤` the encoded balance succeeds, and
both fields are written back as numbers, normalizing the record to
numeric storage. -/
theorem claim_C10_string_amounts_coerced_and_normalized
    (db : List Customer) (cid s sa sb : String) (now : Nat) (user : Option String)
    (c : Customer) (ra ba d : Dec)
    (hfind : find_one db cid = some c)
    (har : c.Amount_Received = .str sa)
    (hba : c.Balance_Amount = .str sb)
    (hpa : pyFloat sa = some (.fin ra))
    (hpb : pyFloat sb = some (.fin ba))
    (hparse : pyFloat s = some (.fin d))
    (hd0 : 0 ≤ d.val) (hdb : d.val ≤ ba.val) :
    (update_amount db cid s now user).1 = .updated ∧
    ∃ ar2 ba2 : Dec,
      find_one (update_amount db cid s now user).2 cid =
        some { c with Amount_Received := .num (.fin ar2),
                      Balance_Amount := .num (.fin ba2),
                      updated_at := now, updated_by := user } ∧
      ar2.val = ra.val + d.val ∧ ba2.val = ba.val - d.val := by
  have har' : c.Amount_Received.toFloat = some (.fin ra) := by
    rw [har]
    exact hpa
  have hba' : c.Balance_Amount.toFloat = some (.fin ba) := by
    rw [hba]
    exact hpb
  obtain ⟨h1, h2⟩ :=
    update_amount_success db cid s now user c ra ba d hfind har' hba' hparse hd0 hdb
  refine ⟨h1, ra.add d, ba.add d.neg, h2, Dec.val_add ra d, ?_⟩
  rw [Dec.val_add, Dec.val_neg]
  ring

/-- C10 witness: the legacy record with `Amount_Received = "1000.50"`,
`Balance_Amount = "4000"` accepting the delta `"0.5"` and being
rewritten with numeric fields. -/
theorem claim_C10_string_amounts_coerced_and_normalized_witness :
    (update_amount [wCustLegacy] "C002" "0.5" 11 (some "admin")).1 = .updated ∧
    ∃ ar2 ba2 : Dec,
      find_one (update_amount [wCustLegacy] "C002" "0.5" 11 (some "admin")).2 "C002" =
        some { wCustLegacy with Amount_Received := .num (.fin ar2),
                                Balance_Amount := .num (.fin ba2),
                                updated_at := 11, updated_by := some "admin" } ∧
      ar2.val = (Dec.mk 100050 2).val + (Dec.mk 5 1).val ∧
      ba2.val = (Dec.mk 4000 0).val - (Dec.mk 5 1).val :=
  claim_C10_string_amounts_coerced_and_normalized [wCustLegacy] "C002" "0.5"
    "1000.50" "4000" 11 (some "admin") wCustLegacy ⟨100050, 2⟩ ⟨4000, 0⟩ ⟨5, 1⟩
    (by decide) rfl rfl (by decide) (by decide) (by decide)
    ((Dec.isNonneg_iff ⟨5, 1⟩).mp (by decide))
    ((Dec.le_iff ⟨5, 1⟩ ⟨4000, 0⟩).mp (by decide))

end CMS
